import Mathlib

/-!
Verification of the daily-news ingestion-and-delivery pipeline.

The definitions below are shallow embeddings of the TypeScript sources:
`Article` / `Article.generateId` (domain/models/Article.ts, backed by a full
SHA-256 implementation mirroring node's `crypto.createHash('sha256')`),
the `ArticleFilterService` operations, `FeedClient`, `DiscordNotifier`'s
retry loop, `ArticleStorage.appendArticles`, and the two use cases.
Machine 32-bit words are `Nat` reduced modulo `2 ^ 32`; asynchronous,
fallible calls are embedded in `Except`, with the outcome of each external
effect supplied as an explicit parameter.
-/

/-! ### SHA-256 (pure model of node crypto sha256 over UTF-8 bytes) -/

/-- 32-bit truncation, as performed on every word operation. -/
def trunc32 (x : Nat) : Nat := x % (2 ^ 32)

/-- Right rotation of a 32-bit word. -/
def rotr32 (x n : Nat) : Nat := trunc32 ((x >>> n) ||| (x <<< (32 - n)))

/-- Bitwise complement of a 32-bit word. -/
def not32 (x : Nat) : Nat := x ^^^ (2 ^ 32 - 1)

def sha256SmallSigma0 (x : Nat) : Nat := (rotr32 x 7) ^^^ (rotr32 x 18) ^^^ (x >>> 3)

def sha256SmallSigma1 (x : Nat) : Nat := (rotr32 x 17) ^^^ (rotr32 x 19) ^^^ (x >>> 10)

def sha256BigSigma0 (x : Nat) : Nat := (rotr32 x 2) ^^^ (rotr32 x 13) ^^^ (rotr32 x 22)

def sha256BigSigma1 (x : Nat) : Nat := (rotr32 x 6) ^^^ (rotr32 x 11) ^^^ (rotr32 x 25)

def sha256Ch (x y z : Nat) : Nat := (x &&& y) ^^^ ((not32 x) &&& z)

def sha256Maj (x y z : Nat) : Nat := (x &&& y) ^^^ (x &&& z) ^^^ (y &&& z)

/-- The 64 SHA-256 round constants. -/
def sha256K : List Nat :=
  [1116352408, 1899447441, 3049323471, 3921009573,
   961987163, 1508970993, 2453635748, 2870763221,
   3624381080, 310598401, 607225278, 1426881987,
   1925078388, 2162078206, 2614888103, 3248222580,
   3835390401, 4022224774, 264347078, 604807628,
   770255983, 1249150122, 1555081692, 1996064986,
   2554220882, 2821834349, 2952996808, 3210313671,
   3336571891, 3584528711, 113926993, 338241895,
   666307205, 773529912, 1294757372, 1396182291,
   1695183700, 1986661051, 2177026350, 2456956037,
   2730485921, 2820302411, 3259730800, 3345764771,
   3516065817, 3600352804, 4094571909, 275423344,
   430227734, 506948616, 659060556, 883997877,
   958139571, 1322822218, 1537002063, 1747873779,
   1955562222, 2024104815, 2227730452, 2361852424,
   2428436474, 2756734187, 3204031479, 3329325298]

/-- SHA-256 initial hash value. -/
structure Sha256State where
  a : Nat
  b : Nat
  c : Nat
  d : Nat
  e : Nat
  f : Nat
  g : Nat
  h : Nat
deriving DecidableEq

def sha256Init : Sha256State :=
  ⟨1779033703, 3144134277, 1013904242, 2773480762,
   1359893119, 2600822924, 528734635, 1541459225⟩

/-- Big-endian bytes of a 64-bit length field. -/
def bytesBE8 (n : Nat) : List Nat :=
  [(n >>> 56) % 256, (n >>> 48) % 256, (n >>> 40) % 256, (n >>> 32) % 256,
   (n >>> 24) % 256, (n >>> 16) % 256, (n >>> 8) % 256, n % 256]

/-- Big-endian bytes of a 32-bit word. -/
def bytesBE4 (n : Nat) : List Nat :=
  [(n >>> 24) % 256, (n >>> 16) % 256, (n >>> 8) % 256, n % 256]

/-- SHA-256 padding: append 0x80, zero bytes up to 56 mod 64, then the 64-bit bit length. -/
def sha256Pad (msg : List Nat) : List Nat :=
  let zeros := (120 - ((msg.length + 1) % 64)) % 64
  msg ++ [128] ++ List.replicate zeros 0 ++ bytesBE8 (msg.length * 8)

/-- Split a byte list into 64-byte chunks; the fuel argument only bounds the
recursion depth and is in excess, so it never changes the result. -/
def chunks64Fuel : Nat → List Nat → List (List Nat)
  | _, [] => []
  | 0, _ => []
  | fuel + 1, x :: rest => (x :: rest).take 64 :: chunks64Fuel fuel ((x :: rest).drop 64)

/-- Split a byte list into 64-byte chunks. -/
def chunks64 (l : List Nat) : List (List Nat) := chunks64Fuel l.length l

/-- The 16 initial 32-bit big-endian words of one 64-byte chunk. -/
def wordsOfChunk (c : List Nat) : List Nat :=
  (List.range 16).map (fun i =>
    (c.getD (4 * i) 0 <<< 24) ||| (c.getD (4 * i + 1) 0 <<< 16) |||
    (c.getD (4 * i + 2) 0 <<< 8) ||| c.getD (4 * i + 3) 0)

/-- Extend the 16-word message schedule to 64 words. -/
def sha256Schedule (w16 : List Nat) : List Nat :=
  (List.range 48).foldl
    (fun w _ =>
      let t := w.length
      w ++ [trunc32 (sha256SmallSigma1 (w.getD (t - 2) 0) + w.getD (t - 7) 0 +
                     sha256SmallSigma0 (w.getD (t - 15) 0) + w.getD (t - 16) 0)])
    w16

/-- One SHA-256 compression round. -/
def sha256Round (st : Sha256State) (wk : Nat × Nat) : Sha256State :=
  let t1 := trunc32 (st.h + sha256BigSigma1 st.e + sha256Ch st.e st.f st.g + wk.2 + wk.1)
  let t2 := trunc32 (sha256BigSigma0 st.a + sha256Maj st.a st.b st.c)
  ⟨trunc32 (t1 + t2), st.a, st.b, st.c, trunc32 (st.d + t1), st.e, st.f, st.g⟩

/-- Compress one 64-byte chunk into the running hash state. -/
def sha256Compress (st : Sha256State) (chunk : List Nat) : Sha256State :=
  let ws := sha256Schedule (wordsOfChunk chunk)
  let r := (ws.zip sha256K).foldl sha256Round st
  ⟨trunc32 (st.a + r.a), trunc32 (st.b + r.b), trunc32 (st.c + r.c), trunc32 (st.d + r.d),
   trunc32 (st.e + r.e), trunc32 (st.f + r.f), trunc32 (st.g + r.g), trunc32 (st.h + r.h)⟩

/-- SHA-256 digest (32 bytes) of a byte list. -/
def sha256Bytes (msg : List Nat) : List Nat :=
  let st := (chunks64 (sha256Pad msg)).foldl sha256Compress sha256Init
  bytesBE4 st.a ++ bytesBE4 st.b ++ bytesBE4 st.c ++ bytesBE4 st.d ++
  bytesBE4 st.e ++ bytesBE4 st.f ++ bytesBE4 st.g ++ bytesBE4 st.h

/-- Lowercase hex digit. -/
def hexDigit (n : Nat) : Char :=
  if n < 10 then Char.ofNat (48 + n) else Char.ofNat (87 + n)

/-- Two-digit lowercase hex rendering of one byte. -/
def hexOfByte (b : Nat) : List Char := [hexDigit (b / 16), hexDigit (b % 16)]

/-- UTF-8 encoding of one unicode scalar value, as node buffers a JS string. -/
def utf8BytesOfChar (ch : Char) : List Nat :=
  let n := ch.toNat
  if n < 128 then [n]
  else if n < 2048 then [192 + n / 64, 128 + n % 64]
  else if n < 65536 then [224 + n / 4096, 128 + (n / 64) % 64, 128 + n % 64]
  else [240 + n / 262144, 128 + (n / 4096) % 64, 128 + (n / 64) % 64, 128 + n % 64]

/-- UTF-8 bytes of a string. -/
def utf8Bytes (s : String) : List Nat := s.data.flatMap utf8BytesOfChar

/-- `crypto.createHash('sha256').update(s).digest('hex')`. -/
def sha256Hex (s : String) : String :=
  String.mk ((sha256Bytes (utf8Bytes s)).flatMap hexOfByte)

/-! ### Domain model -/

/-- `domain/models/Article.ts`: the article entity's stored fields. The `_id`
field of the class is always the value of `generateId`, so it is modelled as
the derived function `Article.id` rather than a field. -/
structure Article where
  title : String
  url : String
  description : Option String
  content : Option String
  publishedAt : Int
  feedName : String
deriving DecidableEq

/-- `Article.generateId`: `crypto.createHash('sha256').update(url + title).digest('hex')`. -/
def generateId (url title : String) : String := sha256Hex (url ++ title)

/-- The article's unique id, recomputed from `url` and `title` at construction. -/
def Article.id (a : Article) : String := generateId a.url a.title

/-- `application/dto/ArticleDTO.ts`. -/
structure ArticleDTO where
  id : String
  title : String
  url : String
  description : Option String
  publishedAt : Int
  feedName : String
deriving DecidableEq

/-- `ArticleDTO.fromDomain`. -/
def ArticleDTO.fromDomain (a : Article) : ArticleDTO :=
  ⟨a.id, a.title, a.url, a.description, a.publishedAt, a.feedName⟩

/-- `ArticleDTO.fromDomainList`. -/
def ArticleDTO.fromDomainList (articles : List Article) : List ArticleDTO :=
  articles.map ArticleDTO.fromDomain

/-- `ArticleDTO.toDomain`: reconstructs the entity (the `content` field is not carried). -/
def ArticleDTO.toDomain (dto : ArticleDTO) : Article :=
  ⟨dto.title, dto.url, dto.description, none, dto.publishedAt, dto.feedName⟩

/-- `domain/models/ArticleFilter.ts`: 'OR' | 'AND'. -/
inductive MatchStrategy where
  | OR : MatchStrategy
  | AND : MatchStrategy
deriving DecidableEq, BEq

/-- Filter options with all defaults resolved. -/
structure FilterOptions where
  matchStrategy : MatchStrategy
  caseSensitive : Bool
  searchInTitle : Bool
  searchInDescription : Bool
  searchInContent : Bool
deriving DecidableEq

/-- The `ArticleFilter` value (keywords plus options). -/
structure ArticleFilter where
  keywords : List String
  options : FilterOptions
deriving DecidableEq

/-- The `ArticleFilter` constructor, which throws when the keyword list is empty. -/
def ArticleFilter.create (keywords : List String) (options : FilterOptions) : Except String ArticleFilter :=
  if keywords.length = 0 then Except.error ("At least one keyword is required for filtering")
  else Except.ok ⟨keywords, options⟩

/-- `domain/models/Feed.ts`. -/
inductive FeedType where
  | rss : FeedType
  | atom : FeedType
deriving DecidableEq

structure Feed where
  name : String
  url : String
  feedType : FeedType
  enabled : Bool
deriving DecidableEq

/-! ### ArticleFilterService -/

/-- `ArticleFilterService.buildSearchableText`: concatenates the enabled fields
that are present (a JS truthiness check, so empty strings are skipped too),
joined by a single space. -/
def buildSearchableText (article : Article) (options : FilterOptions) : String :=
  let parts :=
    (if options.searchInTitle then [article.title] else []) ++
    (match article.description with
     | some d => if options.searchInDescription && d.length != 0 then [d] else []
     | none => []) ++
    (match article.content with
     | some c => if options.searchInContent && c.length != 0 then [c] else []
     | none => [])
  String.intercalate (" ") parts

/-- Whether the first character list is a prefix of the second. -/
def charsPrefixOf : List Char → List Char → Bool
  | [], _ => true
  | a :: as, hay =>
      match hay with
      | [] => false
      | b :: brest => (a == b) && charsPrefixOf as brest

/-- Whether the needle occurs contiguously in the haystack (JS `String.includes`). -/
def charsSubstrOf (needle : List Char) : List Char → Bool
  | [] => needle.isEmpty
  | b :: bs => charsPrefixOf needle (b :: bs) || charsSubstrOf needle bs

/-- `ArticleFilterService.matchKeyword`: case-folded substring containment. -/
def matchKeyword (text keyword : String) (caseSensitive : Bool) : Bool :=
  let searchText := if caseSensitive then text else text.toLower
  let searchKeyword := if caseSensitive then keyword else keyword.toLower
  charsSubstrOf searchKeyword.toList searchText.toList

/-- `ArticleFilterService.matchesFilter`: map each keyword to its match result,
then combine with `some` for 'OR' and `every` otherwise. -/
def ArticleFilterService.matchesFilter (article : Article) (f : ArticleFilter) : Bool :=
  let searchableText := buildSearchableText article f.options
  let matchResults := f.keywords.map (fun keyword => matchKeyword searchableText keyword f.options.caseSensitive)
  match f.options.matchStrategy with
  | MatchStrategy.OR => matchResults.any (fun m => m)
  | MatchStrategy.AND => matchResults.all (fun m => m)

/-- `ArticleFilterService.filterArticles`. -/
def ArticleFilterService.filterArticles (articles : List Article) (f : ArticleFilter) : List Article :=
  articles.filter (fun article => ArticleFilterService.matchesFilter article f)

/-- `ArticleFilterService.excludeReadArticles`: keep the articles whose id is
not in the read-id set (`Set.has` is membership). -/
def ArticleFilterService.excludeReadArticles (articles : List Article) (readArticleIds : List String) : List Article :=
  articles.filter (fun article => !(decide (article.id ∈ readArticleIds)))

/-- Stable insertion of an article into a list sorted by `publishedAt`
descending: the inserted (earlier-in-input) article goes before equal keys. -/
def insertDesc (a : Article) : List Article → List Article
  | [] => [a]
  | b :: rest => if b.publishedAt ≤ a.publishedAt then a :: b :: rest else b :: insertDesc a rest

/-- The value computed by the comparator `(a, b) => b.publishedAt.getTime() - a.publishedAt.getTime()`
under JS's stable `Array.prototype.sort`: the stable descending sort. -/
def sortDescArticles : List Article → List Article
  | [] => []
  | a :: rest => insertDesc a (sortDescArticles rest)

/-- `ArticleFilterService.sortByPublishedDate` calls `articles.sort(...)`, which
sorts the argument array in place and returns that same array. The pair models
(returned list, contents of the argument after the call). -/
def ArticleFilterService.sortByPublishedDate (articles : List Article) : List Article × List Article :=
  (sortDescArticles articles, sortDescArticles articles)

/-- `ArticleFilterService.limitArticles` calls `articles.slice(0, maxCount)`,
which copies and leaves the argument untouched. The pair models
(returned list, contents of the argument after the call). -/
def ArticleFilterService.limitArticles (articles : List Article) (maxCount : Nat) : List Article × List Article :=
  (articles.take maxCount, articles)

/-! ### FeedClient (infrastructure/feed/FeedClient.ts) -/

/-- The retry loop of `FeedClient.fetchFeed`: `attemptResult i` is the outcome of
the i-th parse attempt (1-indexed); on success return the articles, otherwise
remember the error and retry while attempts remain, then throw a
`FeedFetchError` carrying the last error's message. -/
def fetchFeedGo (attemptResult : Nat → Except String (List Article)) (attempt : Nat) :
    Nat → Option String → Except String (List Article)
  | 0, lastError =>
      Except.error (match lastError with
        | some e => e
        | none => "null")
  | fuel + 1, _ =>
      match attemptResult attempt with
      | Except.ok articles => Except.ok articles
      | Except.error e => fetchFeedGo attemptResult (attempt + 1) fuel (some e)

/-- `FeedClient.fetchFeed` with `maxRetries` attempts. -/
def FeedClient.fetchFeed (attemptResult : Nat → Except String (List Article)) (maxRetries : Nat) :
    Except String (List Article) :=
  fetchFeedGo attemptResult 1 maxRetries none

/-- The catch inside `fetchFeeds`'s per-feed task: a failed feed contributes an
empty list instead of aborting the batch. -/
def absorbFeedFailure : Except String (List Article) → List Article
  | Except.ok articles => articles
  | Except.error _ => []

/-- `FeedClient.fetchFeeds`: fan out one fetch per feed (`Promise.all` keeps the
feed order), absorb per-feed failures, and flatten all results. The call itself
never rejects, hence the unconditional `Except.ok`. -/
def FeedClient.fetchFeeds (attemptsOf : Feed → Nat → Except String (List Article))
    (maxRetries : Nat) (feeds : List Feed) : Except String (List Article) :=
  Except.ok ((feeds.map (fun fd => absorbFeedFailure (FeedClient.fetchFeed (attemptsOf fd) maxRetries))).flatten)

/-! ### DiscordNotifier.sendWithRetry (infrastructure/notification/DiscordNotifier.ts) -/

/-- Outcome of one webhook post attempt: success, an HTTP 429 rate-limit
response with an optional `retry-after` header (in seconds), or any other
failure. -/
inductive AttemptOutcome where
  | success : AttemptOutcome
  | rateLimited : Option Nat → AttemptOutcome
  | otherFailure : AttemptOutcome
deriving DecidableEq

/-- Result of the retry loop: whether a post succeeded, the waits (ms, in
order) performed between attempts, and the number of attempts made. -/
structure SendResult where
  ok : Bool
  waits : List Nat
  attempts : Nat
deriving DecidableEq

/-- The loop of `DiscordNotifier.sendWithRetry`. On a 429 the wait is
`retry-after * 1000` ms when the header is present, else `retryDelayMs * attempt`,
and the loop continues (even from the final attempt). On any other failure the
wait `retryDelayMs * attempt` happens only when attempts remain. -/
def sendGo (attemptOutcome : Nat → AttemptOutcome) (maxRetries retryDelayMs : Nat) :
    Nat → Nat → SendResult
  | _, 0 => ⟨false, [], 0⟩
  | attempt, fuel + 1 =>
      match attemptOutcome attempt with
      | AttemptOutcome.success => ⟨true, [], 1⟩
      | AttemptOutcome.rateLimited retryAfter =>
          let waitTime := match retryAfter with
            | some s => s * 1000
            | none => retryDelayMs * attempt
          let r := sendGo attemptOutcome maxRetries retryDelayMs (attempt + 1) fuel
          ⟨r.ok, waitTime :: r.waits, r.attempts + 1⟩
      | AttemptOutcome.otherFailure =>
          if attempt < maxRetries then
            let r := sendGo attemptOutcome maxRetries retryDelayMs (attempt + 1) fuel
            ⟨r.ok, retryDelayMs * attempt :: r.waits, r.attempts + 1⟩
          else ⟨false, [], 1⟩

/-- `DiscordNotifier.sendWithRetry`, attempts 1-indexed up to `maxRetries`. -/
def DiscordNotifier.sendWithRetry (attemptOutcome : Nat → AttemptOutcome)
    (maxRetries retryDelayMs : Nat) : SendResult :=
  sendGo attemptOutcome maxRetries retryDelayMs 1 maxRetries

/-- The spec's stub client: two 429 responses carrying a 2-second hint, then success. -/
def rateLimitStub : Nat → AttemptOutcome := fun attempt =>
  if attempt ≤ 2 then AttemptOutcome.rateLimited (some 2) else AttemptOutcome.success

/-! ### ArticleStorage.appendArticles (infrastructure/persistence/ArticleStorage.ts) -/

/-- `ArticleStorage.appendArticles` as a transformation of the stored article
collection: load, drop incoming articles whose id is already present, return
unchanged when nothing is left, else save the merge. -/
def ArticleStorage.appendArticles (stored newArticles : List Article) : List Article :=
  let existingIds := stored.map (fun a => a.id)
  let articlesToAdd := newArticles.filter (fun a => !(decide (a.id ∈ existingIds)))
  if articlesToAdd.isEmpty then stored
  else stored ++ articlesToAdd

/-! ### FetchArticlesUseCase (application/usecases/FetchArticlesUseCase.ts) -/

structure FetchArticlesOutput where
  articles : List ArticleDTO
  totalFetched : Nat
  totalFiltered : Nat
  newArticles : Nat
deriving DecidableEq

/-- `FetchArticlesUseCase.filterByKeywords`: with no keywords all articles pass;
otherwise an OR, case-insensitive, title+description filter is applied. -/
def FetchArticlesUseCase.filterByKeywords (articles : List Article) (keywords : List String) : List Article :=
  if keywords.length = 0 then articles
  else ArticleFilterService.filterArticles articles
    ⟨keywords, ⟨MatchStrategy.OR, false, true, true, false⟩⟩

/-- `FetchArticlesUseCase.execute`, with the feed-fetch result and the stored
read-article ids supplied as inputs. `maxArticles` is `number | undefined` and
is applied through a JS truthiness test, so `some 0` and `none` both skip the
limiting step. -/
def FetchArticlesUseCase.execute (fetchedArticles : List Article) (readArticleIds : List String)
    (keywords : List String) (maxArticles : Option Nat) : FetchArticlesOutput :=
  let filteredArticles := FetchArticlesUseCase.filterByKeywords fetchedArticles keywords
  let newArticles := ArticleFilterService.excludeReadArticles filteredArticles readArticleIds
  let sortedArticles := (ArticleFilterService.sortByPublishedDate newArticles).1
  let limitedArticles := match maxArticles with
    | some n => if n != 0 then (ArticleFilterService.limitArticles sortedArticles n).1 else sortedArticles
    | none => sortedArticles
  ⟨ArticleDTO.fromDomainList limitedArticles, fetchedArticles.length,
   filteredArticles.length, newArticles.length⟩

/-! ### NotifyArticlesUseCase (application/usecases/NotifyArticlesUseCase.ts) -/

structure NotifyArticlesInput where
  articles : List ArticleDTO
  keywords : List String
  skipNotifyIfEmpty : Bool
deriving DecidableEq

structure NotifyArticlesOutput where
  notified : Bool
  articleCount : Nat
  savedToRepository : Bool
deriving DecidableEq

/-- Outcomes of the external effects performed during one run of
`NotifyArticlesUseCase.execute`. -/
structure NotifyEnv where
  notifyArticlesResult : Except String Unit
  saveReadArticlesResult : Except String Unit
  cleanupOldArticlesResult : Except String Unit
  notifyErrorResult : Except String Unit

/-- The private `cleanupOldArticles` helper: its own try/catch logs the failure
as non-critical and never rethrows. -/
def cleanupOldArticlesStep (env : NotifyEnv) : Except String Unit :=
  match env.cleanupOldArticlesResult with
  | Except.ok _ => Except.ok ()
  | Except.error _ => Except.ok ()

/-- `NotifyArticlesUseCase.execute`. The single try block covers delivery,
`saveReadArticles` and the cleanup step; its catch logs, best-effort notifies
the error (that secondary failure is absorbed), and rethrows the original
error. -/
def NotifyArticlesUseCase.execute (env : NotifyEnv) (input : NotifyArticlesInput) :
    Except String NotifyArticlesOutput :=
  if input.articles.length = 0 then
    if input.skipNotifyIfEmpty then Except.ok ⟨false, 0, false⟩
    else
      match env.notifyArticlesResult with
      | Except.ok _ => Except.ok ⟨true, 0, false⟩
      | Except.error e => Except.error e
  else
    match env.notifyArticlesResult with
    | Except.error e => Except.error e
    | Except.ok _ =>
        match env.saveReadArticlesResult with
        | Except.error e => Except.error e
        | Except.ok _ =>
            match cleanupOldArticlesStep env with
            | Except.error e => Except.error e
            | Except.ok _ => Except.ok ⟨true, input.articles.length, true⟩

/-! ### Concrete fixtures used by the individual claims -/

def c1Dto : ArticleDTO := ⟨"id1", "Rust 1.80", "https://example.com/rust", none, 1704067200000, "blog"⟩

def c1Input : NotifyArticlesInput := ⟨[c1Dto], ["rust"], false⟩

/-- Delivery succeeds, persisting the read articles fails. -/
def c1EnvSaveFails : NotifyEnv := ⟨Except.ok (), Except.error ("disk full"), Except.ok (), Except.ok ()⟩

/-- Delivery and persistence succeed, pruning fails. -/
def c1EnvPruneFails : NotifyEnv := ⟨Except.ok (), Except.ok (), Except.error ("prune failed"), Except.ok ()⟩

def c2Article : Article := ⟨"Intro to Rust", "https://example.com/a", none, none, 0, "blog"⟩

/-- An empty keyword list with the default OR strategy. -/
def c2FilterOR : ArticleFilter := ⟨[], ⟨MatchStrategy.OR, false, true, true, false⟩⟩

def c3Early : Article := ⟨"early", "https://example.com/e", none, none, 1, "blog"⟩

def c3Late : Article := ⟨"late", "https://example.com/l", none, none, 2, "blog"⟩

def c4ArticleA : Article := ⟨"Title", "https://example.com/x", some "first copy", none, 1, "feedA"⟩

def c4ArticleB : Article := ⟨"Title", "https://example.com/x", some "other copy", some "body", 99, "feedB"⟩

def c5X : Article := ⟨"seen article", "https://example.com/seen", none, none, 1, "blog"⟩

def c5Y : Article := ⟨"new article", "https://example.com/new", none, none, 2, "blog"⟩

def c7Feed : Feed := ⟨"hn", "https://example.com/feed", FeedType.rss, true⟩

/-- Every attempt of every feed fails. -/
def c7AttemptsOf : Feed → Nat → Except String (List Article) := fun _ _ => Except.error ("down")

def c8X : Article := ⟨"stored article", "https://example.com/stored", none, none, 1, "blog"⟩

def c9Jan : Article := ⟨"january", "https://example.com/1", none, none, 1704067200000, "blog"⟩

def c9Mar : Article := ⟨"march", "https://example.com/3", none, none, 1709251200000, "blog"⟩

def c9Feb : Article := ⟨"february", "https://example.com/2", none, none, 1706745600000, "blog"⟩

/-! ### Helper lemmas -/

theorem insertDesc_perm (a : Article) (l : List Article) : (insertDesc a l).Perm (a :: l) := by
  induction l with
  | nil => simp [insertDesc]
  | cons b rest ih =>
    simp only [insertDesc]
    split
    · exact List.Perm.refl _
    · exact (ih.cons b).trans (List.Perm.swap a b rest)

theorem sortDescArticles_perm (l : List Article) : (sortDescArticles l).Perm l := by
  induction l with
  | nil => simp [sortDescArticles]
  | cons a rest ih =>
    exact (insertDesc_perm a (sortDescArticles rest)).trans (ih.cons a)

theorem insertDesc_pairwise (a : Article) (l : List Article)
    (h : List.Pairwise (fun x y => y.publishedAt ≤ x.publishedAt) l) :
    List.Pairwise (fun x y => y.publishedAt ≤ x.publishedAt) (insertDesc a l) := by
  induction l with
  | nil => simp [insertDesc]
  | cons b rest ih =>
    simp only [insertDesc]
    split
    next hba =>
      refine List.Pairwise.cons ?_ h
      intro y hy
      rcases List.mem_cons.mp hy with hyb | hyr
      · subst hyb; exact hba
      · exact le_trans (List.rel_of_pairwise_cons h hyr) hba
    next hba =>
      have hab : a.publishedAt ≤ b.publishedAt := le_of_lt (lt_of_not_le hba)
      refine List.Pairwise.cons ?_ (ih (List.Pairwise.sublist (List.sublist_cons_self b rest) h))
      intro y hy
      have hy' : y ∈ a :: rest := ((insertDesc_perm a rest).mem_iff).mp hy
      rcases List.mem_cons.mp hy' with hya | hyr
      · subst hya; exact hab
      · exact List.rel_of_pairwise_cons h hyr

theorem sortDescArticles_pairwise (l : List Article) :
    List.Pairwise (fun x y => y.publishedAt ≤ x.publishedAt) (sortDescArticles l) := by
  induction l with
  | nil => simp [sortDescArticles]
  | cons a rest ih => exact insertDesc_pairwise a (sortDescArticles rest) ih

theorem insertDesc_filter_key (a : Article) (l : List Article) (t : Int) :
    (insertDesc a l).filter (fun x => x.publishedAt == t)
      = (a :: l).filter (fun x => x.publishedAt == t) := by
  induction l with
  | nil => rfl
  | cons b rest ih =>
    simp only [insertDesc]
    split
    next hba => rfl
    next hba =>
      by_cases hat : a.publishedAt = t
      · by_cases hbt : b.publishedAt = t
        · exact absurd (hbt.trans hat.symm ▸ le_refl b.publishedAt) hba
        · simp [List.filter_cons, hat, hbt, ih]
      · by_cases hbt : b.publishedAt = t
        · simp [List.filter_cons, hat, hbt, ih]
        · simp [List.filter_cons, hat, hbt, ih]

theorem sortDescArticles_filter_key (l : List Article) (t : Int) :
    (sortDescArticles l).filter (fun x => x.publishedAt == t)
      = l.filter (fun x => x.publishedAt == t) := by
  induction l with
  | nil => rfl
  | cons a rest ih =>
    have h1 := insertDesc_filter_key a (sortDescArticles rest) t
    simp only [sortDescArticles, h1, List.filter_cons, ih]

theorem sendGo_waits_spec (f : Nat → AttemptOutcome) (m d : Nat) :
    ∀ (fuel a j : Nat), j < ((sendGo f m d a fuel).waits).length →
      (∀ s, f (a + j) = AttemptOutcome.rateLimited (some s) →
        (sendGo f m d a fuel).waits.getD j 0 = s * 1000) ∧
      (f (a + j) = AttemptOutcome.otherFailure →
        (sendGo f m d a fuel).waits.getD j 0 = d * (a + j)) := by
  intro fuel
  induction fuel with
  | zero => intro a j hj; simp [sendGo] at hj
  | succ fuel ih =>
    intro a j hj
    rcases hfa : f a with _ | ra | _
    · rw [show sendGo f m d a (fuel + 1) = ⟨true, [], 1⟩ from by simp [sendGo, hfa]] at hj
      simp at hj
    · have hgo : sendGo f m d a (fuel + 1)
          = ⟨(sendGo f m d (a + 1) fuel).ok,
             (match ra with | some s => s * 1000 | none => d * a) :: (sendGo f m d (a + 1) fuel).waits,
             (sendGo f m d (a + 1) fuel).attempts + 1⟩ := by
        rcases ra with _ | s <;> simp [sendGo, hfa]
      cases j with
      | zero =>
        constructor
        · intro s hs
          rw [Nat.add_zero] at hs
          rw [hfa] at hs
          cases hs
          simp [hgo]
        · intro hs
          rw [Nat.add_zero] at hs
          rw [hfa] at hs
          cases hs
      | succ j =>
        rw [hgo] at hj
        simp only [List.length_cons, Nat.succ_lt_succ_iff] at hj
        have hrec := ih (a + 1) j hj
        have harith : a + (j + 1) = (a + 1) + j := by omega
        rw [harith]
        simpa [hgo] using hrec
    · by_cases ham : a < m
      · have hgo : sendGo f m d a (fuel + 1)
            = ⟨(sendGo f m d (a + 1) fuel).ok,
               d * a :: (sendGo f m d (a + 1) fuel).waits,
               (sendGo f m d (a + 1) fuel).attempts + 1⟩ := by
          simp [sendGo, hfa, ham]
        cases j with
        | zero =>
          constructor
          · intro s hs
            rw [Nat.add_zero] at hs
            rw [hfa] at hs
            cases hs
          · intro _
            simp [hgo]
        | succ j =>
          rw [hgo] at hj
          simp only [List.length_cons, Nat.succ_lt_succ_iff] at hj
          have hrec := ih (a + 1) j hj
          have harith : a + (j + 1) = (a + 1) + j := by omega
          rw [harith]
          simpa [hgo] using hrec
      · rw [show sendGo f m d a (fuel + 1) = ⟨false, [], 1⟩ from by simp [sendGo, hfa, ham]] at hj
        simp at hj

theorem fetchFeedGo_all_fail (att : Nat → Except String (List Article)) :
    ∀ (fuel a : Nat) (le : Option String),
      (∀ i, a ≤ i → i < a + fuel → (att i).isOk = false) →
      (fetchFeedGo att a fuel le).isOk = false := by
  intro fuel
  induction fuel with
  | zero => intro a le _; simp [fetchFeedGo, Except.isOk, Except.toBool]
  | succ fuel ih =>
    intro a le h
    have hfa : (att a).isOk = false := h a (le_refl a) (by omega)
    rcases hatt : att a with e | v
    · have hstep : fetchFeedGo att a (fuel + 1) le = fetchFeedGo att (a + 1) fuel (some e) := by
        simp [fetchFeedGo, hatt]
      rw [hstep]
      exact ih (a + 1) (some e) (fun i h1 h2 => h i (by omega) (by omega))
    · rw [hatt] at hfa
      simp [Except.isOk, Except.toBool] at hfa

/-! ### Claim theorems -/

/-- Claim C4: the article id is a pure function of (url, title) — articles that
agree on `url` and `title` get the same id regardless of description, content,
publishedAt or feedName — and the id is the SHA-256 hex digest of the
concatenation of url then title with no separator. -/
theorem articleId_pure_function_of_url_title (a b : Article)
    (hu : a.url = b.url) (ht : a.title = b.title) :
    a.id = b.id ∧ a.id = sha256Hex (a.url ++ a.title) := by
  constructor
  · simp [Article.id, generateId, hu, ht]
  · rfl

/-- Witness for C4: two concrete articles sharing url and title but differing
in description, content, publishedAt and feedName. -/
theorem articleId_pure_function_of_url_title_witness :
    c4ArticleA.id = c4ArticleB.id ∧ c4ArticleA.id = sha256Hex (c4ArticleA.url ++ c4ArticleA.title) :=
  articleId_pure_function_of_url_title c4ArticleA c4ArticleB rfl rfl

/-- Claim C9: `sortByPublishedDate` returns the articles sorted by
`publishedAt` descending; the sort is stable (for every timestamp the articles
carrying it keep their input order); the result is a permutation of the input;
and the spec's example [2024-01-01, 2024-03-01, 2024-02-01] (as epoch
milliseconds) sorts to [2024-03-01, 2024-02-01, 2024-01-01]. -/
theorem sortByPublishedDate_sorted_stable (l : List Article) (t : Int) :
    List.Pairwise (fun x y => y.publishedAt ≤ x.publishedAt)
      ((ArticleFilterService.sortByPublishedDate l).1)
    ∧ ((ArticleFilterService.sortByPublishedDate l).1).filter (fun x => x.publishedAt == t)
        = l.filter (fun x => x.publishedAt == t)
    ∧ ((ArticleFilterService.sortByPublishedDate l).1).Perm l
    ∧ (ArticleFilterService.sortByPublishedDate [c9Jan, c9Mar, c9Feb]).1 = [c9Mar, c9Feb, c9Jan] := by
  refine ⟨sortDescArticles_pairwise l, sortDescArticles_filter_key l t, sortDescArticles_perm l, ?_⟩
  decide

/-- Counterexample for C3: `sortByPublishedDate` is not mutation-free — after
the call on an out-of-order list the argument's contents are the sorted order,
not the original order. -/
theorem sortByPublishedDate_mutates_counterexample :
    (ArticleFilterService.sortByPublishedDate [c3Early, c3Late]).2 ≠ [c3Early, c3Late] := by
  decide

/-- Claim C3 as amended: `limitArticles` is pure (it returns a prefix copy and
leaves its argument unchanged), while `sortByPublishedDate` returns the stable
descending sort but sorts its argument array in place, so after the call the
argument holds the sorted order (it equals the input only when the input was
already sorted). -/
theorem rank_limit_purity_amended (l : List Article) (n : Nat) :
    (ArticleFilterService.limitArticles l n).2 = l
    ∧ (ArticleFilterService.limitArticles l n).1 = l.take n
    ∧ (ArticleFilterService.sortByPublishedDate l).2 = sortDescArticles l
    ∧ (ArticleFilterService.sortByPublishedDate l).1 = (ArticleFilterService.sortByPublishedDate l).2 :=
  ⟨rfl, rfl, rfl, rfl⟩

/-- Claim C10: the `maxArticles` cap in `FetchArticlesUseCase.execute` is
applied only when truthy: `some 0` behaves exactly like `none` (all sorted
articles are returned, not zero), and a non-zero cap takes a prefix. -/
theorem maxArticles_zero_no_truncation (fetched : List Article) (readIds : List String)
    (keywords : List String) :
    FetchArticlesUseCase.execute fetched readIds keywords (some 0)
      = FetchArticlesUseCase.execute fetched readIds keywords none
    ∧ (FetchArticlesUseCase.execute fetched readIds keywords none).articles
        = ArticleDTO.fromDomainList (sortDescArticles
            (ArticleFilterService.excludeReadArticles
              (FetchArticlesUseCase.filterByKeywords fetched keywords) readIds))
    ∧ ∀ n : Nat, (FetchArticlesUseCase.execute fetched readIds keywords (some (n + 1))).articles
        = ArticleDTO.fromDomainList ((sortDescArticles
            (ArticleFilterService.excludeReadArticles
              (FetchArticlesUseCase.filterByKeywords fetched keywords) readIds)).take (n + 1)) :=
  ⟨rfl, rfl, fun _ => rfl⟩

/-- Counterexample for C1: with a non-empty batch whose delivery succeeds, a
failure in `saveReadArticles` makes `NotifyArticlesUseCase.execute` rethrow the
storage error instead of returning a successful output. -/
theorem saveFailure_propagates_counterexample :
    c1EnvSaveFails.notifyArticlesResult = Except.ok ()
    ∧ NotifyArticlesUseCase.execute c1EnvSaveFails c1Input = Except.error ("disk full") := by
  exact ⟨rfl, rfl⟩

/-- Claim C1 as amended: after successful delivery of a non-empty batch, a
pruning (cleanup) failure is only logged and `execute` still returns the
successful output; but a `saveReadArticles` failure propagates — `execute`
rethrows that storage error and the run fails. -/
theorem notifyArticles_persist_prune_error_policy (env : NotifyEnv) (input : NotifyArticlesInput)
    (hne : input.articles.length ≠ 0) (hnotify : env.notifyArticlesResult = Except.ok ()) :
    (∀ e, env.saveReadArticlesResult = Except.error e →
      NotifyArticlesUseCase.execute env input = Except.error e)
    ∧ (env.saveReadArticlesResult = Except.ok () →
      NotifyArticlesUseCase.execute env input = Except.ok ⟨true, input.articles.length, true⟩) := by
  constructor
  · intro e hsave
    simp [NotifyArticlesUseCase.execute, hne, hnotify, hsave]
  · intro hsave
    rcases hc : env.cleanupOldArticlesResult with ec | vc <;>
      simp [NotifyArticlesUseCase.execute, hne, hnotify, hsave, cleanupOldArticlesStep, hc]

/-- Witness for C1's amended claim: a concrete run where delivery and
persistence succeed and only pruning fails still reports success. -/
theorem notifyArticles_persist_prune_error_policy_witness :
    NotifyArticlesUseCase.execute c1EnvPruneFails c1Input = Except.ok ⟨true, 1, true⟩ :=
  (notifyArticles_persist_prune_error_policy c1EnvPruneFails c1Input (by decide) rfl).2 rfl

/-- Counterexample for C2: an empty keyword list under the OR strategy makes
`matchesFilter` return false for an article (`[].some` is false), so
`filterArticles` drops everything instead of passing the list through. -/
theorem emptyKeywords_or_counterexample :
    ArticleFilterService.matchesFilter c2Article c2FilterOR = false
    ∧ ArticleFilterService.filterArticles [c2Article] c2FilterOR = [] := by
  decide

/-- Claim C2 as amended: an empty keyword list reaching the matcher is
strategy-dependent, not match-everything: under AND (`[].every`) every article
matches and `filterArticles` is the identity, while under OR (`[].some`) no
article matches and `filterArticles` returns the empty list. -/
theorem emptyKeywords_matcher_policy (a : Article) (l : List Article) (opts : FilterOptions) :
    ArticleFilterService.matchesFilter a ⟨[], opts⟩ = (opts.matchStrategy == MatchStrategy.AND)
    ∧ ArticleFilterService.filterArticles l ⟨[], opts⟩
        = (if opts.matchStrategy == MatchStrategy.AND then l else []) := by
  rcases hm : opts.matchStrategy with _ | _ <;>
    simp [ArticleFilterService.matchesFilter, ArticleFilterService.filterArticles, hm]
  · exact ⟨rfl, fun h => absurd h (by decide)⟩
  · exact ⟨rfl, rfl⟩

/-- Claim C5: `excludeReadArticles` returns exactly the subsequence of
articles whose id is not in the seen set, preserving relative order; in
particular with seen set [X.id] and input [X, Y] (distinct ids) the output is
exactly [Y]. -/
theorem excludeReadArticles_spec (l : List Article) (seen : List String) (X Y : Article) :
    (ArticleFilterService.excludeReadArticles l seen).Sublist l
    ∧ (∀ a ∈ ArticleFilterService.excludeReadArticles l seen, a.id ∉ seen)
    ∧ (∀ a ∈ l, a.id ∉ seen → a ∈ ArticleFilterService.excludeReadArticles l seen)
    ∧ (X.id ≠ Y.id → ArticleFilterService.excludeReadArticles [X, Y] [X.id] = [Y]) := by
  refine ⟨List.filter_sublist l, ?_, ?_, ?_⟩
  · intro a ha
    have hmem := List.of_mem_filter ha
    simpa using hmem
  · intro a ha hid
    exact List.mem_filter.mpr ⟨ha, by simpa⟩
  · intro hxy
    simp [ArticleFilterService.excludeReadArticles, List.filter_cons, Ne.symm hxy]

set_option maxRecDepth 1000000 in
/-- Witness for C5: two concrete articles with different urls and titles, the
first one already seen. -/
theorem excludeReadArticles_spec_witness :
    ArticleFilterService.excludeReadArticles [c5X, c5Y] [c5X.id] = [c5Y] :=
  (excludeReadArticles_spec [] [] c5X c5Y).2.2.2 (by decide)

/-- Claim C8: `appendArticles` is idempotent under article id — appending a
batch whose ids are all already stored leaves the collection unchanged, and
appending the same batch twice yields the same stored state as appending it
once. -/
theorem appendArticles_idempotent (s b : List Article) :
    ((∀ a ∈ b, a.id ∈ s.map (fun x => x.id)) → ArticleStorage.appendArticles s b = s)
    ∧ ArticleStorage.appendArticles (ArticleStorage.appendArticles s b) b
        = ArticleStorage.appendArticles s b := by
  have hdef : ∀ (u v : List Article), ArticleStorage.appendArticles u v =
      (if (v.filter (fun a => !(decide (a.id ∈ u.map (fun x => x.id))))).isEmpty then u
       else u ++ v.filter (fun a => !(decide (a.id ∈ u.map (fun x => x.id))))) :=
    fun _ _ => rfl
  constructor
  · intro h
    have hfil : b.filter (fun a => !(decide (a.id ∈ s.map (fun x => x.id)))) = [] := by
      apply List.filter_eq_nil_iff.mpr
      intro a ha
      simp [h a ha]
    rw [hdef, hfil]
    rfl
  · rcases hsplit : b.filter (fun a => !(decide (a.id ∈ s.map (fun x => x.id)))) with _ | ⟨w, ws⟩
    · have h1 : ArticleStorage.appendArticles s b = s := by
        rw [hdef, hsplit]; rfl
      rw [h1]
      exact h1
    · have h1 : ArticleStorage.appendArticles s b = s ++ (w :: ws) := by
        rw [hdef, hsplit]; rfl
      have h2 : b.filter (fun a => !(decide (a.id ∈ (s ++ (w :: ws)).map (fun x => x.id)))) = [] := by
        apply List.filter_eq_nil_iff.mpr
        intro a ha
        have hgoal : a.id ∈ (s ++ (w :: ws)).map (fun x => x.id) := by
          rw [List.map_append, List.mem_append]
          by_cases hs : a.id ∈ s.map (fun x => x.id)
          · exact Or.inl hs
          · refine Or.inr (List.mem_map.mpr ⟨a, ?_, rfl⟩)
            rw [← hsplit]
            exact List.mem_filter.mpr ⟨ha, by simpa using hs⟩
        intro hx
        rw [decide_eq_true hgoal] at hx
        simp at hx
      rw [h1, hdef, h2]
      rfl

/-- Witness for C8: a batch whose single article is already stored is a no-op. -/
theorem appendArticles_idempotent_witness :
    ArticleStorage.appendArticles [c8X] [c8X] = [c8X] :=
  (appendArticles_idempotent [c8X] [c8X]).1
    (by intro a ha; rw [List.mem_singleton.mp ha]; simp)

/-- Claim C6: in `sendWithRetry`, an attempt failing with a 429 response that
carries a retry-after hint of `s` seconds is followed by a wait of exactly
`s * 1000` ms, overriding the normal backoff, while any other failure is
followed by a wait of `attempt * retryDelayMs` (attempts 1-indexed); and the
spec's stub (two 429s hinting 2 seconds, then success) waits [2000, 2000] ms
and succeeds with exactly 3 attempts. -/
theorem sendWithRetry_wait_policy (f : Nat → AttemptOutcome) (maxRetries retryDelayMs j : Nat)
    (hj : j < ((DiscordNotifier.sendWithRetry f maxRetries retryDelayMs).waits).length) :
    ((∀ s, f (j + 1) = AttemptOutcome.rateLimited (some s) →
        (DiscordNotifier.sendWithRetry f maxRetries retryDelayMs).waits.getD j 0 = s * 1000) ∧
      (f (j + 1) = AttemptOutcome.otherFailure →
        (DiscordNotifier.sendWithRetry f maxRetries retryDelayMs).waits.getD j 0
          = retryDelayMs * (j + 1)))
    ∧ DiscordNotifier.sendWithRetry rateLimitStub 3 1000 = ⟨true, [2000, 2000], 3⟩ := by
  have hmain := sendGo_waits_spec f maxRetries retryDelayMs maxRetries 1 j hj
  have harith : 1 + j = j + 1 := Nat.add_comm 1 j
  rw [harith] at hmain
  exact ⟨hmain, by decide⟩

/-- Witness for C6: the first recorded wait of the stub run is the hinted
2000 ms. -/
theorem sendWithRetry_wait_policy_witness :
    (DiscordNotifier.sendWithRetry rateLimitStub 3 1000).waits.getD 0 0 = 2 * 1000 :=
  ((sendWithRetry_wait_policy rateLimitStub 3 1000 0 (by decide)).1).1 2 (by decide)

/-- Claim C7: `fetchFeeds` never rejects — it always returns the concatenation,
in feed order, of the per-feed results (each feed's own articles keeping their
parse order), and a feed all of whose attempts fail contributes the empty
list rather than aborting the batch. -/
theorem fetchFeeds_absorbs_failures (attemptsOf : Feed → Nat → Except String (List Article))
    (maxRetries : Nat) (feeds : List Feed) :
    FeedClient.fetchFeeds attemptsOf maxRetries feeds
      = Except.ok (feeds.flatMap (fun fd =>
          absorbFeedFailure (FeedClient.fetchFeed (attemptsOf fd) maxRetries)))
    ∧ ∀ fd, (∀ i, 1 ≤ i → i ≤ maxRetries → ((attemptsOf fd) i).isOk = false) →
        absorbFeedFailure (FeedClient.fetchFeed (attemptsOf fd) maxRetries) = [] := by
  constructor
  · rw [FeedClient.fetchFeeds, List.flatMap_def]
  · intro fd h
    have hfail : (FeedClient.fetchFeed (attemptsOf fd) maxRetries).isOk = false := by
      apply fetchFeedGo_all_fail
      intro i h1 h2
      exact h i h1 (by omega)
    rcases hres : FeedClient.fetchFeed (attemptsOf fd) maxRetries with e | v
    · rfl
    · rw [hres] at hfail
      simp [Except.isOk, Except.toBool] at hfail

/-- Witness for C7: a single feed whose every attempt fails yields a run that
still succeeds with the empty concatenation. -/
theorem fetchFeeds_absorbs_failures_witness :
    FeedClient.fetchFeeds c7AttemptsOf 3 [c7Feed] = Except.ok []
    ∧ absorbFeedFailure (FeedClient.fetchFeed (c7AttemptsOf c7Feed) 3) = [] := by
  have h := fetchFeeds_absorbs_failures c7AttemptsOf 3 [c7Feed]
  have h2 := h.2 c7Feed (fun i h1 hle => rfl)
  exact ⟨by rw [h.1]; simp [h2], h2⟩
